import Mathlib

/-!
Verification of the Drawing-Annotation-Tool (`src/annotate.py`).

Shallow embedding: masks are lists of rows; a 3-channel in-memory mask holds
BGR triples of `Nat` (uint8 values, overflow written explicitly with `% 256`);
the persisted 1-channel mask holds `Nat` values.  The filesystem of persisted
`.npy` files is an association list from path to 1-channel mask; `np.save`
conses a new entry (shadowing any older one, as an overwrite does), and
`np.load` is `List.lookup`.  External collaborators (OpenCV, NumPy) are
modelled by their documented behaviour: `cv2.cvtColor(_, COLOR_BGR2GRAY)` is
OpenCV's fixed-point grayscale formula, `cv2.circle(mask, (x,y), r, color, -1)`
fills the disc of Euclidean radius `r` clipped to the buffer, `cv2.imread`
is an environment function giving each image file its (height, width).
-/

/-- A BGR pixel: (blue, green, red), each a uint8 value. -/
abbrev Pix : Type := Nat × Nat × Nat

/-- The in-memory 3-channel mask: a list of rows of BGR pixels. -/
abbrev Mask3 : Type := List (List Pix)

/-- The persisted 1-channel mask: a list of rows of uint8 values. -/
abbrev Mask1 : Type := List (List Nat)

/-- OpenCV's fixed-point BGR→gray conversion for uint8:
`(B*1868 + G*9617 + R*4899 + 8192) >> 14` (the coefficients are
`0.114, 0.587, 0.299` scaled by `2^14`; they sum to exactly `2^14`,
so `gray (v,v,v) = v` and no saturation occurs for uint8 inputs).
Models `cv2.cvtColor(mask, cv2.COLOR_BGR2GRAY)` at one pixel. -/
def gray (p : Pix) : Nat :=
  (1868 * p.1 + 9617 * p.2.1 + 4899 * p.2.2 + 8192) / 16384

/-- `save_mask`'s collapse (annotate.py lines 124-125): grayscale the
3-channel mask, then threshold `np.where(gray_mask > 0, 1, 0)`. -/
def collapseMask (m : Mask3) : Mask1 :=
  m.map (List.map fun p => if 0 < gray p then 1 else 0)

/-- `initialize_mask`'s expansion (annotate.py line 60):
`np.stack([binary_mask] * 3, axis=-1) * 255` on uint8 data
(the multiplication wraps modulo 256). -/
def expandMask (b : Mask1) : Mask3 :=
  b.map (List.map fun v => (v * 255 % 256, v * 255 % 256, v * 255 % 256))

/-- `os.path.basename`: the component after the last `/`. -/
def basename (p : String) : String :=
  String.mk (p.toList.foldl (fun acc c => if c = '/' then [] else acc ++ [c]) [])

/-- The stem of `os.path.splitext`: everything before the last dot,
where leading dots of the name do not count as an extension separator
(Python's rule: `".bashrc"` has no extension, `"a.b.c"` has stem `"a.b"`). -/
def splitextStem (f : String) : String :=
  let cs := f.toList
  let lead := (cs.takeWhile (· = '.')).length
  let rest := cs.drop lead
  if rest.contains '.' then
    let restRev := rest.reverse
    let keepRev := restRev.drop ((restRev.takeWhile (· ≠ '.')).length + 1)
    String.mk (cs.take lead ++ keepRev.reverse)
  else f

/-- The path `initialize_mask` derives for an image's mask file
(annotate.py lines 53-55): `os.path.join(save_dir, stem(basename(img)) + ".npy")`. -/
def maskPathFor (saveDir imgFile : String) : String :=
  saveDir ++ "/" ++ splitextStem (basename imgFile) ++ ".npy"

/-- An all-zero 3-channel mask of the given height and width
(`np.zeros(first_img.shape, np.uint8)` where the image shape is `(h, w, 3)`). -/
def zeros3 (h w : Nat) : Mask3 :=
  List.replicate h (List.replicate w ((0 : Nat), (0 : Nat), (0 : Nat)))

/-- Model of `cv2.circle(m, (x, y), r, c, -1)` (external collaborator,
documented behaviour): set every buffer pixel within Euclidean distance `r`
of the centre `(x, y)` to the colour `c`, clipped to the buffer bounds;
pixels outside the disc, and the buffer's shape, are untouched, and a disc
extending past the edges is silently clipped (no failure). -/
def stampDisc (m : Mask3) (x y : Int) (r : Int) (c : Pix) : Mask3 :=
  m.mapIdx fun row rowPix =>
    rowPix.mapIdx fun col p =>
      if ((col : Int) - x) ^ 2 + ((row : Int) - y) ^ 2 ≤ r ^ 2 then c else p

/-- The external environment: `cv2.imread img` decodes to a buffer of shape
`(shape img).1 × (shape img).2 × 3`. -/
structure Env where
  shape : String → Nat × Nat

/-- The mutable state of `AnnotationTool` plus the mask files on disk.
`disk` is the save directory's contents: an association list from
path to persisted 1-channel mask, newest entry first. -/
structure ToolState where
  imgFiles : List String
  saveDir : String
  index : Nat
  mask : Mask3
  maskPath : String
  drawing : Bool
  brushSize : Int
  eraserMode : Bool
  disk : List (String × Mask1)
deriving DecidableEq

/-- The image file the session currently displays: `self.img_files[self.index]`
(Python would raise on an out-of-range index; reachable states keep
`index < imgFiles.length`, so the `getD` default is never consulted there). -/
def imgAt (s : ToolState) : String :=
  s.imgFiles.getD s.index ""

/-- `AnnotationTool.initialize_mask` (annotate.py lines 51-64): derive the
mask path from the current image's basename; if a persisted mask exists,
load and expand it, else allocate zeros shaped like the image. -/
def initialize_mask (env : Env) (s : ToolState) : ToolState :=
  let mask_path := maskPathFor s.saveDir (imgAt s)
  match s.disk.lookup mask_path with
  | some binary_mask =>
      { s with maskPath := mask_path, mask := expandMask binary_mask }
  | none =>
      { s with maskPath := mask_path,
               mask := zeros3 (env.shape (imgAt s)).1 (env.shape (imgAt s)).2 }

/-- `AnnotationTool.save_mask` (annotate.py lines 122-126): collapse the
3-channel mask to a binary 1-channel mask and write it at `self.mask_path`
(`np.save` overwrites; the new entry shadows any older one). -/
def save_mask (s : ToolState) : ToolState :=
  { s with disk := (s.maskPath, collapseMask s.mask) :: s.disk }

/-- `AnnotationTool.set_brush_size` (annotate.py lines 128-135):
stores the argument, with no clamping. -/
def set_brush_size (s : ToolState) (size : Int) : ToolState :=
  { s with brushSize := size }

/-- `cv2.EVENT_MOUSEMOVE` -/
def EVENT_MOUSEMOVE : Nat := 0
/-- `cv2.EVENT_LBUTTONDOWN` -/
def EVENT_LBUTTONDOWN : Nat := 1
/-- `cv2.EVENT_LBUTTONUP` -/
def EVENT_LBUTTONUP : Nat := 4

/-- `AnnotationTool.draw_mask` (annotate.py lines 66-91): the mouse callback.
It first refreshes `self.brush_size` from the trackbar (`cv2.getTrackbarPos`,
an external input, position in `[0, 50]`, passed here as `trackbar`), picks
the stroke colour from the eraser flag, then dispatches on the event:
button-down stamps and starts drawing, button-up stops drawing, move stamps
only while drawing.  `update_window` only renders and is omitted (no state). -/
def draw_mask (s : ToolState) (event : Nat) (x y : Int) (trackbar : Nat) : ToolState :=
  let s := { s with brushSize := (trackbar : Int) }
  let color : Pix := if s.eraserMode then (0, 0, 0) else (255, 255, 255)
  if event = EVENT_LBUTTONDOWN then
    { s with drawing := true, mask := stampDisc s.mask x y s.brushSize color }
  else if event = EVENT_LBUTTONUP then
    { s with drawing := false }
  else if event = EVENT_MOUSEMOVE then
    if s.drawing then { s with mask := stampDisc s.mask x y s.brushSize color }
    else s
  else s

/-- One iteration of `AnnotationTool.main`'s key loop (annotate.py lines
150-167), for the key returned by `cv2.waitKey(0)`.  Returns the new state
and whether the loop continues (`false` on the quit keys `27`/`q`, where the
loop breaks with the state untouched).  Window and trackbar creation and
`update_window` render only and are omitted (no session state). -/
def mainStep (env : Env) (key : Nat) (s : ToolState) : ToolState × Bool :=
  if key = 27 ∨ key = 113 then
    (s, false)
  else if key = 97 ∨ key = 100 then
    let s1 := save_mask s
    let s2 := { s1 with index :=
      (if key = 97 then ((s1.index : Int) - 1) % (s1.imgFiles.length : Int)
       else ((s1.index : Int) + 1) % (s1.imgFiles.length : Int)).toNat }
    (initialize_mask env s2, true)
  else if key = 101 then
    ({ s with eraserMode := ¬ s.eraserMode }, true)
  else if key = 114 then
    ({ s with mask := s.mask.map (List.map fun _ => ((0 : Nat), (0 : Nat), (0 : Nat))) }, true)
  else
    (s, true)

/-- `AnnotationTool.__init__` (annotate.py lines 24-49): record directories
(`save_dir if save_dir else img_dir` — Python truthiness, `None` or the empty
string fall back to `img_dir`), start at index 0 with default flags and brush
size 5, then `initialize_mask`.  This is the directory computation:
`save_dir if save_dir else img_dir` — Python truthiness, so `None` or the
empty string fall back to `img_dir`. -/
def saveDirOf (img_dir : String) (save_dir : Option String) : String :=
  match save_dir with
  | none => img_dir
  | some d => if d = "" then img_dir else d

/-- The rest of `AnnotationTool.__init__`: start at index 0 with default flags
and brush size 5, then `initialize_mask`.  The sorted glob of the image
directory and the pre-existing files of the save directory are inputs
(`imgFiles`, `disk0`). -/
def initTool (env : Env) (imgFiles : List String) (img_dir : String)
    (save_dir : Option String) (disk0 : List (String × Mask1)) : ToolState :=
  initialize_mask env
    { imgFiles := imgFiles, saveDir := saveDirOf img_dir save_dir, index := 0, mask := [],
      maskPath := "", drawing := false, brushSize := 5, eraserMode := false,
      disk := disk0 }

/-- The result of `parse_args` (annotate.py lines 10-20): `--img_dir`
defaults to `"images"`, `--save_dir` defaults to `"outputs"`. -/
structure Args where
  img_dir : String
  save_dir : String
deriving DecidableEq

/-- `parse_args`, with `none` for an absent command-line option. -/
def parse_args (img_arg save_arg : Option String) : Args :=
  { img_dir := img_arg.getD "images", save_dir := save_arg.getD "outputs" }

/-- The `__main__` entry (annotate.py lines 172-197): parse arguments and
construct `AnnotationTool(args.img_dir, save_dir=args.save_dir)` — the
`save_dir` keyword always receives the parsed string. -/
def cliInit (env : Env) (imgFiles : List String)
    (img_arg save_arg : Option String) (disk0 : List (String × Mask1)) : ToolState :=
  let args := parse_args img_arg save_arg
  initTool env imgFiles args.img_dir (some args.save_dir) disk0

/-- A pixel the tool itself ever writes: pure black or pure white. -/
def PurePix (p : Pix) : Prop := p = (0, 0, 0) ∨ p = (255, 255, 255)

/-- Every pixel of the 3-channel mask is pure black or pure white
(in particular the three channels agree everywhere). -/
def ChanPure (m : Mask3) : Prop := ∀ row ∈ m, ∀ p ∈ row, PurePix p

/-- A persisted mask holds only the values 0 and 1. -/
def Vals01 (b : Mask1) : Prop := ∀ row ∈ b, ∀ v ∈ row, v = 0 ∨ v = 1

/-- Every persisted mask on disk holds only the values 0 and 1. -/
def DiskVals01 (d : List (String × Mask1)) : Prop := ∀ e ∈ d, Vals01 e.2

/-- A 3-channel mask is a rectangular `h × w` buffer. -/
def Rect3 (m : Mask3) (h w : Nat) : Prop :=
  m.length = h ∧ ∀ row ∈ m, row.length = w

/-- A 1-channel mask is a rectangular `h × w` buffer. -/
def Rect1 (b : Mask1) (h w : Nat) : Prop :=
  b.length = h ∧ ∀ row ∈ b, row.length = w

/-- Every persisted mask file that exists for one of the session's images has
the shape of that image (the well-formedness the tool itself maintains for
the files it writes). -/
def DiskOK (env : Env) (imgFiles : List String) (saveDir : String)
    (disk : List (String × Mask1)) : Prop :=
  ∀ f ∈ imgFiles, ∀ b, disk.lookup (maskPathFor saveDir f) = some b →
    Rect1 b (env.shape f).1 (env.shape f).2

/-- Two images whose mask files collide on the same path (same basename stem)
have the same shape — without this, the single path could not satisfy the
shape invariant for both images. -/
def PathsConsistent (env : Env) (imgFiles : List String) (saveDir : String) : Prop :=
  ∀ f ∈ imgFiles, ∀ g ∈ imgFiles,
    maskPathFor saveDir f = maskPathFor saveDir g → env.shape f = env.shape g

/-- The session states reachable by the tool: the freshly constructed state
(for a nonempty image list, with well-formed pre-existing mask files), one
key-loop iteration that continues, and one mouse-callback invocation. -/
inductive Reachable (env : Env) : ToolState → Prop
  | init (imgFiles : List String) (img_dir : String) (save_dir : Option String)
      (disk0 : List (String × Mask1))
      (hne : imgFiles ≠ [])
      (hpc : PathsConsistent env imgFiles (saveDirOf img_dir save_dir))
      (hdisk : DiskOK env imgFiles (saveDirOf img_dir save_dir) disk0) :
      Reachable env (initTool env imgFiles img_dir save_dir disk0)
  | key (s : ToolState) (k : Nat) (s' : ToolState)
      (hs : Reachable env s) (h : mainStep env k s = (s', true)) :
      Reachable env s'
  | pointer (s : ToolState) (event : Nat) (x y : Int) (tb : Nat)
      (hs : Reachable env s) :
      Reachable env (draw_mask s event x y tb)

/-- The shape/path invariant maintained across the session (used to verify
the persisted-format and reset-then-save claims). -/
def ShapeInv (env : Env) (s : ToolState) : Prop :=
  s.imgFiles ≠ [] ∧
  s.index < s.imgFiles.length ∧
  PathsConsistent env s.imgFiles s.saveDir ∧
  s.maskPath = maskPathFor s.saveDir (imgAt s) ∧
  Rect3 s.mask (env.shape (imgAt s)).1 (env.shape (imgAt s)).2 ∧
  DiskOK env s.imgFiles s.saveDir s.disk

instance (p : Pix) : Decidable (PurePix p) :=
  inferInstanceAs (Decidable (_ ∨ _))

instance (m : Mask3) : Decidable (ChanPure m) :=
  inferInstanceAs (Decidable (∀ row ∈ m, ∀ p ∈ row, PurePix p))

instance (b : Mask1) : Decidable (Vals01 b) :=
  inferInstanceAs (Decidable (∀ row ∈ b, ∀ v ∈ row, v = 0 ∨ v = 1))

instance (d : List (String × Mask1)) : Decidable (DiskVals01 d) :=
  inferInstanceAs (Decidable (∀ e ∈ d, Vals01 e.2))

instance (m : Mask3) (h w : Nat) : Decidable (Rect3 m h w) :=
  inferInstanceAs (Decidable (_ ∧ ∀ row ∈ m, row.length = w))

instance (b : Mask1) (h w : Nat) : Decidable (Rect1 b h w) :=
  inferInstanceAs (Decidable (_ ∧ ∀ row ∈ b, row.length = w))

/-- A concrete environment for witnesses: every image decodes as 2×3. -/
def envA : Env := ⟨fun _ => (2, 3)⟩

/-- A concrete freshly constructed session over one 2×3 image and an empty
save directory (mask is created as 2×3 zeros). -/
def stateA : ToolState := initTool envA ["images/a.png"] "images" none []

/-- A concrete mid-session state used as input for witness instantiations. -/
def stateB : ToolState :=
  { imgFiles := ["images/a.png"], saveDir := "images", index := 0,
    mask := zeros3 2 3, maskPath := "images/a.npy", drawing := false,
    brushSize := 5, eraserMode := false, disk := [] }

/-! ### List helper lemmas -/

theorem mem_of_mapIdx {α β : Type} (f : Nat → α → β) (l : List α) (b : β)
    (hb : b ∈ l.mapIdx f) : ∃ i a, a ∈ l ∧ b = f i a := by
  rw [List.mapIdx_eq_enum_map] at hb
  obtain ⟨⟨i, a⟩, hmem, rfl⟩ := List.mem_map.mp hb
  obtain ⟨hlt, ha⟩ := List.mem_enum hmem
  exact ⟨i, a, ha ▸ List.getElem_mem hlt, rfl⟩

theorem lookup_mem {β : Type} (d : List (String × β)) (k : String) (v : β)
    (h : d.lookup k = some v) : (k, v) ∈ d := by
  induction d with
  | nil => simp [List.lookup] at h
  | cons e d ih =>
    rw [List.lookup_cons] at h
    by_cases hk : k = e.1
    · simp [hk] at h
      subst h
      exact hk ▸ List.mem_cons_self _ _
    · simp [beq_false_of_ne hk] at h
      exact List.mem_cons_of_mem _ (ih h)

theorem getD_mapIdx {α β : Type} (l : List α) (f : Nat → α → β) (i : Nat)
    (dA : α) (dB : β) (h : i < l.length) :
    (l.mapIdx f).getD i dB = f i (l.getD i dA) := by
  rw [List.getD_eq_getElem _ _ (by simpa using h), List.getD_eq_getElem _ _ h]
  simp [List.getElem_mapIdx]

/-! ### Shape lemmas -/

theorem collapseMask_rect (m : Mask3) (h w : Nat) (hm : Rect3 m h w) :
    Rect1 (collapseMask m) h w := by
  obtain ⟨hl, hr⟩ := hm
  refine ⟨by simpa [collapseMask] using hl, ?_⟩
  intro row hrow
  obtain ⟨r, hrm, rfl⟩ := List.mem_map.mp hrow
  simpa using hr r hrm

theorem expandMask_rect (b : Mask1) (h w : Nat) (hb : Rect1 b h w) :
    Rect3 (expandMask b) h w := by
  obtain ⟨hl, hr⟩ := hb
  refine ⟨by simpa [expandMask] using hl, ?_⟩
  intro row hrow
  obtain ⟨r, hrm, rfl⟩ := List.mem_map.mp hrow
  simpa using hr r hrm

theorem zeros3_rect (h w : Nat) : Rect3 (zeros3 h w) h w := by
  constructor
  · simp [zeros3]
  · intro row hrow
    simp only [zeros3] at hrow
    rw [List.eq_of_mem_replicate hrow]
    simp

theorem stampDisc_rect (m : Mask3) (x y r : Int) (c : Pix) (h w : Nat)
    (hm : Rect3 m h w) : Rect3 (stampDisc m x y r c) h w := by
  obtain ⟨hl, hr⟩ := hm
  refine ⟨by simpa [stampDisc, List.length_mapIdx] using hl, ?_⟩
  intro row hrow
  obtain ⟨i, a, ham, rfl⟩ := mem_of_mapIdx _ _ _ hrow
  simpa [List.length_mapIdx] using hr a ham

theorem resetMask_rect (m : Mask3) (h w : Nat) (hm : Rect3 m h w) :
    Rect3 (m.map (List.map fun _ => ((0 : Nat), (0 : Nat), (0 : Nat)))) h w := by
  obtain ⟨hl, hr⟩ := hm
  refine ⟨by simpa using hl, ?_⟩
  intro row hrow
  obtain ⟨r, hrm, rfl⟩ := List.mem_map.mp hrow
  simpa using hr r hrm

/-! ### Purity and value lemmas -/

theorem collapseMask_vals01 (m : Mask3) : Vals01 (collapseMask m) := by
  intro row hrow v hv
  obtain ⟨r, _, rfl⟩ := List.mem_map.mp hrow
  obtain ⟨p, _, rfl⟩ := List.mem_map.mp hv
  by_cases hg : 0 < gray p <;> simp [hg]

theorem expandMask_pure (b : Mask1) (hb : Vals01 b) : ChanPure (expandMask b) := by
  intro row hrow p hp
  obtain ⟨r, hrm, rfl⟩ := List.mem_map.mp hrow
  obtain ⟨v, hvm, rfl⟩ := List.mem_map.mp hp
  rcases hb r hrm v hvm with rfl | rfl
  · left; rfl
  · right; rfl

theorem zeros3_pure (h w : Nat) : ChanPure (zeros3 h w) := by
  intro row hrow p hp
  simp only [zeros3] at hrow
  rw [List.eq_of_mem_replicate hrow] at hp
  rw [List.eq_of_mem_replicate hp]
  left; rfl

theorem stampDisc_pure (m : Mask3) (x y r : Int) (c : Pix)
    (hc : PurePix c) (hm : ChanPure m) : ChanPure (stampDisc m x y r c) := by
  intro row hrow p hp
  obtain ⟨i, a, ham, rfl⟩ := mem_of_mapIdx _ _ _ hrow
  obtain ⟨j, q, hqm, rfl⟩ := mem_of_mapIdx _ _ _ hp
  by_cases hd : ((j : Int) - x) ^ 2 + ((i : Int) - y) ^ 2 ≤ r ^ 2
  · simpa [hd] using hc
  · simpa [hd] using hm a ham q hqm

theorem resetMask_pure (m : Mask3) :
    ChanPure (m.map (List.map fun _ => ((0 : Nat), (0 : Nat), (0 : Nat)))) := by
  intro row hrow p hp
  obtain ⟨r, _, rfl⟩ := List.mem_map.mp hrow
  obtain ⟨q, _, rfl⟩ := List.mem_map.mp hp
  left; rfl

theorem expand_collapse_pix (p : Pix) (hp : PurePix p) :
    (fun v : Nat => (v * 255 % 256, v * 255 % 256, v * 255 % 256))
      ((fun q : Pix => if 0 < gray q then (1 : Nat) else 0) p) = p := by
  rcases hp with rfl | rfl <;> decide

theorem expand_collapse (m : Mask3) (hm : ChanPure m) :
    expandMask (collapseMask m) = m := by
  unfold expandMask collapseMask
  rw [List.map_map]
  conv_rhs => rw [← List.map_id m]
  refine List.map_congr_left ?_
  intro row hrow
  simp only [Function.comp, List.map_map, List.map_id]
  conv_rhs => rw [← List.map_id row]
  refine List.map_congr_left ?_
  intro p hp
  exact expand_collapse_pix p (hm row hrow p hp)

/-! ### Field-stability lemmas for the operations -/

theorem initialize_mask_imgFiles (env : Env) (s : ToolState) :
    (initialize_mask env s).imgFiles = s.imgFiles := by
  simp only [initialize_mask]; split <;> rfl

theorem initialize_mask_saveDir (env : Env) (s : ToolState) :
    (initialize_mask env s).saveDir = s.saveDir := by
  simp only [initialize_mask]; split <;> rfl

theorem initialize_mask_index (env : Env) (s : ToolState) :
    (initialize_mask env s).index = s.index := by
  simp only [initialize_mask]; split <;> rfl

theorem initialize_mask_disk (env : Env) (s : ToolState) :
    (initialize_mask env s).disk = s.disk := by
  simp only [initialize_mask]; split <;> rfl

theorem draw_mask_cases (s : ToolState) (event : Nat) (x y : Int) (tb : Nat) :
    draw_mask s event x y tb =
      { s with
        brushSize := (tb : Int),
        drawing := true,
        mask := stampDisc s.mask x y (tb : Int)
          (if s.eraserMode then (0, 0, 0) else (255, 255, 255)) } ∨
    draw_mask s event x y tb =
      { s with
        brushSize := (tb : Int),
        drawing := false } ∨
    draw_mask s event x y tb =
      { s with
        brushSize := (tb : Int),
        mask := stampDisc s.mask x y (tb : Int)
          (if s.eraserMode then (0, 0, 0) else (255, 255, 255)) } ∨
    draw_mask s event x y tb =
      { s with
        brushSize := (tb : Int) } := by
  unfold draw_mask
  split
  · left; rfl
  · split
    · right; left; rfl
    · split
      · by_cases hd : s.drawing
        · right; right; left; simp [hd]
        · right; right; right; simp [hd]
      · right; right; right; rfl

theorem imgAt_mem (s : ToolState) (h : s.index < s.imgFiles.length) :
    imgAt s ∈ s.imgFiles := by
  unfold imgAt
  rw [List.getD_eq_getElem _ _ h]
  exact List.getElem_mem h

/-! ### Shape-invariant preservation -/

theorem initialize_mask_shapeInv (env : Env) (s : ToolState)
    (hne : s.imgFiles ≠ []) (hidx : s.index < s.imgFiles.length)
    (hpc : PathsConsistent env s.imgFiles s.saveDir)
    (hdisk : DiskOK env s.imgFiles s.saveDir s.disk) :
    ShapeInv env (initialize_mask env s) := by
  have hmem := imgAt_mem s hidx
  unfold ShapeInv
  simp only [initialize_mask]
  split
  case h_1 b hb =>
    exact ⟨hne, hidx, hpc, rfl, expandMask_rect b _ _ (hdisk _ hmem b hb), hdisk⟩
  case h_2 hb =>
    exact ⟨hne, hidx, hpc, rfl, zeros3_rect _ _, hdisk⟩

theorem save_mask_diskOK (env : Env) (s : ToolState) (h : ShapeInv env s) :
    DiskOK env s.imgFiles s.saveDir (save_mask s).disk := by
  obtain ⟨hne, hidx, hpc, hpath, hrect, hdisk⟩ := h
  intro f hf b hb
  simp only [save_mask] at hb
  rw [List.lookup_cons] at hb
  by_cases hfp : maskPathFor s.saveDir f = s.maskPath
  · simp only [hfp] at hb
    simp at hb
    have hsh := hpc f hf (imgAt s) (imgAt_mem s hidx) (by rw [hfp, hpath])
    rw [hsh]
    exact hb ▸ collapseMask_rect _ _ _ hrect
  · simp only [beq_false_of_ne hfp] at hb
    exact hdisk f hf b hb

theorem emod_toNat_lt (a : Int) (n : Nat) (hn : n ≠ 0) : (a % (n : Int)).toNat < n := by
  have h1 : 0 ≤ a % (n : Int) := Int.emod_nonneg a (by exact_mod_cast hn)
  have h2 : a % (n : Int) < n :=
    Int.emod_lt_of_pos a (by exact_mod_cast Nat.pos_of_ne_zero hn)
  omega

theorem mainStep_cases (env : Env) (key : Nat) (s : ToolState) :
    (mainStep env key s = (s, false) ∧ (key = 27 ∨ key = 113)) ∨
    (∃ newIdx : Nat,
      mainStep env key s =
        (initialize_mask env { save_mask s with index := newIdx }, true) ∧
      (s.imgFiles.length ≠ 0 → newIdx < s.imgFiles.length)) ∨
    mainStep env key s = ({ s with eraserMode := ¬ s.eraserMode }, true) ∨
    mainStep env key s =
      ({ s with
        mask := s.mask.map (List.map fun _ => ((0 : Nat), (0 : Nat), (0 : Nat))) }, true) ∨
    mainStep env key s = (s, true) := by
  unfold mainStep
  by_cases h1 : key = 27 ∨ key = 113
  · left; exact ⟨by simp [h1], h1⟩
  · by_cases h2 : key = 97 ∨ key = 100
    · right; left
      refine ⟨(if key = 97
          then (((save_mask s).index : Int) - 1) % (((save_mask s).imgFiles.length : Nat) : Int)
          else (((save_mask s).index : Int) + 1) % (((save_mask s).imgFiles.length : Nat) : Int)).toNat,
        by rw [if_neg h1, if_pos h2], ?_⟩
      intro hn
      split <;> exact emod_toNat_lt _ _ hn
    · by_cases h3 : key = 101
      · right; right; left; simp [h1, h2, h3]
      · by_cases h4 : key = 114
        · right; right; right; left; simp [h1, h2, h3, h4]
        · right; right; right; right; simp [h1, h2, h3, h4]

theorem shapeInv_mainStep (env : Env) (k : Nat) (s s' : ToolState)
    (h : ShapeInv env s) (hstep : mainStep env k s = (s', true)) :
    ShapeInv env s' := by
  obtain ⟨hne, hidx, hpc, hpath, hrect, hdisk⟩ := h
  rcases mainStep_cases env k s with ⟨heq, -⟩ | ⟨i, heq, hbound⟩ | heq | heq | heq <;>
    rw [heq, Prod.mk.injEq] at hstep
  · exact absurd hstep.2 (by simp)
  · obtain ⟨rfl, -⟩ := hstep
    apply initialize_mask_shapeInv
    · exact hne
    · exact hbound (Nat.pos_iff_ne_zero.mp (List.length_pos.mpr hne))
    · exact hpc
    · exact save_mask_diskOK env s ⟨hne, hidx, hpc, hpath, hrect, hdisk⟩
  · obtain ⟨rfl, -⟩ := hstep
    exact ⟨hne, hidx, hpc, hpath, hrect, hdisk⟩
  · obtain ⟨rfl, -⟩ := hstep
    exact ⟨hne, hidx, hpc, hpath, resetMask_rect _ _ _ hrect, hdisk⟩
  · obtain ⟨rfl, -⟩ := hstep
    exact ⟨hne, hidx, hpc, hpath, hrect, hdisk⟩

theorem shapeInv_draw_mask (env : Env) (s : ToolState) (event : Nat)
    (x y : Int) (tb : Nat) (h : ShapeInv env s) :
    ShapeInv env (draw_mask s event x y tb) := by
  obtain ⟨hne, hidx, hpc, hpath, hrect, hdisk⟩ := h
  rcases draw_mask_cases s event x y tb with heq | heq | heq | heq <;> rw [heq]
  · exact ⟨hne, hidx, hpc, hpath, stampDisc_rect _ _ _ _ _ _ _ hrect, hdisk⟩
  · exact ⟨hne, hidx, hpc, hpath, hrect, hdisk⟩
  · exact ⟨hne, hidx, hpc, hpath, stampDisc_rect _ _ _ _ _ _ _ hrect, hdisk⟩
  · exact ⟨hne, hidx, hpc, hpath, hrect, hdisk⟩

/-- Every reachable session state satisfies the shape/path invariant. -/
theorem reachable_shapeInv (env : Env) (s : ToolState) (h : Reachable env s) :
    ShapeInv env s := by
  induction h with
  | init imgFiles img_dir save_dir disk0 hne hpc hdisk =>
    unfold initTool
    apply initialize_mask_shapeInv
    · exact hne
    · exact List.length_pos.mpr hne
    · exact hpc
    · exact hdisk
  | key s k s' hs hstep ih => exact shapeInv_mainStep env k s s' ih hstep
  | pointer s event x y tb hs ih => exact shapeInv_draw_mask env s event x y tb ih

/-! ### Purity preservation: every pixel the tool holds is black or white -/

theorem initialize_mask_pure (env : Env) (s : ToolState) (hd : DiskVals01 s.disk) :
    ChanPure (initialize_mask env s).mask := by
  simp only [initialize_mask]
  split
  case h_1 b hb => exact expandMask_pure b (hd _ (lookup_mem _ _ _ hb))
  case h_2 hb => exact zeros3_pure _ _

theorem draw_mask_disk (s : ToolState) (event : Nat) (x y : Int) (tb : Nat) :
    (draw_mask s event x y tb).disk = s.disk := by
  rcases draw_mask_cases s event x y tb with heq | heq | heq | heq <;> rw [heq]

theorem draw_mask_pure (s : ToolState) (event : Nat) (x y : Int) (tb : Nat)
    (hp : ChanPure s.mask) : ChanPure (draw_mask s event x y tb).mask := by
  have hc : PurePix (if s.eraserMode then ((0 : Nat), (0 : Nat), (0 : Nat))
      else ((255 : Nat), (255 : Nat), (255 : Nat))) := by
    by_cases he : s.eraserMode <;> simp [he, PurePix]
  rcases draw_mask_cases s event x y tb with heq | heq | heq | heq <;> rw [heq]
  · exact stampDisc_pure _ _ _ _ _ hc hp
  · exact hp
  · exact stampDisc_pure _ _ _ _ _ hc hp
  · exact hp

theorem mainStep_pure (env : Env) (k : Nat) (s s' : ToolState)
    (hstep : mainStep env k s = (s', true)) (hd : DiskVals01 s'.disk)
    (ih : DiskVals01 s.disk → ChanPure s.mask) : ChanPure s'.mask := by
  rcases mainStep_cases env k s with ⟨heq, -⟩ | ⟨i, heq, -⟩ | heq | heq | heq <;>
    rw [heq, Prod.mk.injEq] at hstep
  · exact absurd hstep.2 (by simp)
  · obtain ⟨rfl, -⟩ := hstep
    rw [initialize_mask_disk] at hd
    exact initialize_mask_pure env _ hd
  · obtain ⟨rfl, -⟩ := hstep; exact ih hd
  · obtain ⟨rfl, -⟩ := hstep; exact resetMask_pure _
  · obtain ⟨rfl, -⟩ := hstep; exact ih hd

/-- In every reachable state whose disk holds only 0/1-valued mask files,
the in-memory mask is everywhere pure black or pure white. -/
theorem reachable_pure (env : Env) (s : ToolState) (h : Reachable env s) :
    DiskVals01 s.disk → ChanPure s.mask := by
  induction h with
  | init imgFiles img_dir save_dir disk0 hne hpc hdisk =>
    unfold initTool
    intro hd
    rw [initialize_mask_disk] at hd
    exact initialize_mask_pure env _ hd
  | key s k s' hs hstep ih => exact fun hd => mainStep_pure env k s s' hstep hd ih
  | pointer s event x y tb hs ih =>
    intro hd
    rw [draw_mask_disk] at hd
    exact draw_mask_pure s event x y tb (ih hd)

/-! ### Pointwise description of a disc stamp -/

theorem stampDisc_length (m : Mask3) (x y r : Int) (c : Pix) :
    (stampDisc m x y r c).length = m.length := by
  simp [stampDisc, List.length_mapIdx]

theorem stampDisc_row_length (m : Mask3) (x y r : Int) (c : Pix) (i : Nat)
    (hi : i < m.length) :
    ((stampDisc m x y r c).getD i []).length = (m.getD i []).length := by
  unfold stampDisc
  rw [getD_mapIdx _ _ i [] [] hi]
  simp [List.length_mapIdx]

theorem stampDisc_getD (m : Mask3) (x y r : Int) (c : Pix) (i j : Nat)
    (hi : i < m.length) (hj : j < (m.getD i []).length) :
    ((stampDisc m x y r c).getD i []).getD j (0, 0, 0) =
      if ((j : Int) - x) ^ 2 + ((i : Int) - y) ^ 2 ≤ r ^ 2 then c
      else (m.getD i []).getD j (0, 0, 0) := by
  unfold stampDisc
  rw [getD_mapIdx _ _ i [] [] hi, getD_mapIdx _ _ j ((0, 0, 0) : Pix) ((0, 0, 0) : Pix) hj]

theorem draw_mask_down (s : ToolState) (x y : Int) (tb : Nat) :
    draw_mask s EVENT_LBUTTONDOWN x y tb =
      { s with
        brushSize := (tb : Int),
        drawing := true,
        mask := stampDisc s.mask x y (tb : Int)
          (if s.eraserMode then (0, 0, 0) else (255, 255, 255)) } := by
  unfold draw_mask
  simp

/-! ### Reset and collapse -/

theorem collapse_reset (m : Mask3) (h w : Nat) (hm : Rect3 m h w) :
    collapseMask (m.map (List.map fun _ => ((0 : Nat), (0 : Nat), (0 : Nat)))) =
      List.replicate h (List.replicate w 0) := by
  obtain ⟨hl, hr⟩ := hm
  unfold collapseMask
  rw [List.map_map]
  apply List.eq_replicate_iff.mpr
  refine ⟨by simpa using hl, ?_⟩
  intro row hrow
  obtain ⟨r, hrm, rfl⟩ := List.mem_map.mp hrow
  apply List.eq_replicate_iff.mpr
  refine ⟨by simpa using hr r hrm, ?_⟩
  intro v hv
  simp only [Function.comp, List.map_map] at hv
  obtain ⟨p, _, rfl⟩ := List.mem_map.mp hv
  norm_num [Function.comp, gray]

/-! ### Claim theorems -/

/-- C1: for a session whose in-memory 3-channel mask has every pixel
(0,0,0) or (255,255,255) (and whose stored mask path is the one derived for
the current image, as the tool always maintains), running `save_mask` and
then reloading via `initialize_mask` with no edits in between restores the
identical in-memory mask; equivalently, `expandMask ∘ collapseMask` is the
identity on such masks — white exactly where the original was nonzero. -/
theorem save_then_reload_roundtrip (env : Env) (s : ToolState)
    (hpure : ChanPure s.mask)
    (hpath : s.maskPath = maskPathFor s.saveDir (imgAt s)) :
    (initialize_mask env (save_mask s)).mask = s.mask ∧
    expandMask (collapseMask s.mask) = s.mask := by
  refine ⟨?_, expand_collapse s.mask hpure⟩
  have hlk : List.lookup (maskPathFor (save_mask s).saveDir (imgAt (save_mask s)))
      (save_mask s).disk = some (collapseMask s.mask) := by
    show List.lookup (maskPathFor s.saveDir (imgAt s))
      ((s.maskPath, collapseMask s.mask) :: s.disk) = some (collapseMask s.mask)
    rw [List.lookup_cons, ← hpath]
    simp
  simp only [initialize_mask, hlk]
  exact expand_collapse s.mask hpure

/-- C1 witness: the round trip at a concrete freshly constructed session
(2×3 all-zero mask over `images/a.png`). -/
theorem save_then_reload_roundtrip_witness :
    (initialize_mask envA (save_mask stateA)).mask = stateA.mask ∧
    expandMask (collapseMask stateA.mask) = stateA.mask :=
  save_then_reload_roundtrip envA stateA (by decide) (by decide)

/-- C2: in every reachable session state, the file `save_mask` writes is a
single-channel 2D array with every value 0 or 1 whose shape is exactly the
current image's (height, width); the write lands at the session's mask path. -/
theorem saved_file_wellformed (env : Env) (s : ToolState) (h : Reachable env s) :
    Vals01 (collapseMask s.mask) ∧
    Rect1 (collapseMask s.mask) (env.shape (imgAt s)).1 (env.shape (imgAt s)).2 ∧
    List.lookup s.maskPath (save_mask s).disk = some (collapseMask s.mask) := by
  obtain ⟨hne, hidx, hpc, hpath, hrect, hdisk⟩ := reachable_shapeInv env s h
  refine ⟨collapseMask_vals01 _, collapseMask_rect _ _ _ hrect, ?_⟩
  show List.lookup s.maskPath ((s.maskPath, collapseMask s.mask) :: s.disk) = _
  rw [List.lookup_cons]
  simp

/-- C2 witness: the saved-file format at the concrete fresh session. -/
theorem saved_file_wellformed_witness :
    Vals01 (collapseMask stateA.mask) ∧
    Rect1 (collapseMask stateA.mask) (envA.shape (imgAt stateA)).1
      (envA.shape (imgAt stateA)).2 ∧
    List.lookup stateA.maskPath (save_mask stateA).disk =
      some (collapseMask stateA.mask) :=
  saved_file_wellformed envA stateA
    (Reachable.init ["images/a.png"] "images" none []
      (by decide)
      (fun f _ g _ _ => rfl)
      (fun f _ b hb => by simp [List.lookup] at hb))

/-- C3: with at least one image, the `a`/`d` navigation keys first run
`save_mask` on the outgoing image, then move the index to (i-1) mod N
resp. (i+1) mod N (Python's nonnegative modulo — wrapping at both ends),
then run `initialize_mask` for the new index; the resulting state's disk
always records the outgoing mask at the outgoing mask path, so leaving an
image through navigation without a save is impossible. -/
theorem navigate_saves_then_wraps (env : Env) (s : ToolState)
    (hN : s.imgFiles ≠ []) :
    mainStep env 97 s =
      (initialize_mask env
        { save_mask s with
          index := (((s.index : Int) - 1) % (s.imgFiles.length : Int)).toNat }, true) ∧
    mainStep env 100 s =
      (initialize_mask env
        { save_mask s with
          index := (((s.index : Int) + 1) % (s.imgFiles.length : Int)).toNat }, true) ∧
    (((s.index : Int) - 1) % (s.imgFiles.length : Int)).toNat < s.imgFiles.length ∧
    (((s.index : Int) + 1) % (s.imgFiles.length : Int)).toNat < s.imgFiles.length ∧
    List.lookup s.maskPath (mainStep env 97 s).1.disk = some (collapseMask s.mask) ∧
    List.lookup s.maskPath (mainStep env 100 s).1.disk = some (collapseMask s.mask) := by
  have hn : s.imgFiles.length ≠ 0 := fun h0 => hN (List.length_eq_zero.mp h0)
  have h97 : mainStep env 97 s =
      (initialize_mask env
        { save_mask s with
          index := (((s.index : Int) - 1) % (s.imgFiles.length : Int)).toNat }, true) := by
    unfold mainStep
    norm_num
    rfl
  have h100 : mainStep env 100 s =
      (initialize_mask env
        { save_mask s with
          index := (((s.index : Int) + 1) % (s.imgFiles.length : Int)).toNat }, true) := by
    unfold mainStep
    norm_num
    rfl
  refine ⟨h97, h100, emod_toNat_lt _ _ hn, emod_toNat_lt _ _ hn, ?_, ?_⟩
  · rw [h97]
    rw [initialize_mask_disk]
    show List.lookup s.maskPath ((s.maskPath, collapseMask s.mask) :: s.disk) = _
    rw [List.lookup_cons]
    simp
  · rw [h100]
    rw [initialize_mask_disk]
    show List.lookup s.maskPath ((s.maskPath, collapseMask s.mask) :: s.disk) = _
    rw [List.lookup_cons]
    simp

/-- C3 witness: navigation at the concrete fresh session (N = 1: both keys
wrap back to index 0, saving first). -/
theorem navigate_saves_then_wraps_witness :
    mainStep envA 97 stateA =
      (initialize_mask envA
        { save_mask stateA with
          index := (((stateA.index : Int) - 1) % (stateA.imgFiles.length : Int)).toNat }, true) ∧
    mainStep envA 100 stateA =
      (initialize_mask envA
        { save_mask stateA with
          index := (((stateA.index : Int) + 1) % (stateA.imgFiles.length : Int)).toNat }, true) ∧
    (((stateA.index : Int) - 1) % (stateA.imgFiles.length : Int)).toNat <
      stateA.imgFiles.length ∧
    (((stateA.index : Int) + 1) % (stateA.imgFiles.length : Int)).toNat <
      stateA.imgFiles.length ∧
    List.lookup stateA.maskPath (mainStep envA 97 stateA).1.disk =
      some (collapseMask stateA.mask) ∧
    List.lookup stateA.maskPath (mainStep envA 100 stateA).1.disk =
      some (collapseMask stateA.mask) :=
  navigate_saves_then_wraps envA stateA (by decide)

/-- C4: both quit keys (escape = 27 and `q` = 113) terminate the key loop
with the session state — in particular the disk of persisted masks —
completely untouched: no `save_mask` happens on quit. -/
theorem quit_terminates_without_save (env : Env) (s : ToolState) :
    mainStep env 27 s = (s, false) ∧ mainStep env 113 s = (s, false) := by
  constructor <;> simp [mainStep]

/-- C5: a button-down stroke stamps a disc of radius = the trackbar value at
`(x, y)`: the buffer keeps its shape (so pixels outside the buffer are
unaffected and a disc extending past the edges is clipped without failure),
and every in-bounds pixel `(j, i)` becomes the stroke colour exactly when
its Euclidean distance from the centre is at most the radius, and is left
unchanged otherwise. -/
theorem stamp_disc_exact (s : ToolState) (x y : Int) (tb : Nat) (i j : Nat)
    (hi : i < s.mask.length) (hj : j < (s.mask.getD i []).length) :
    ((draw_mask s EVENT_LBUTTONDOWN x y tb).mask).length = s.mask.length ∧
    (((draw_mask s EVENT_LBUTTONDOWN x y tb).mask).getD i []).length =
      (s.mask.getD i []).length ∧
    (((draw_mask s EVENT_LBUTTONDOWN x y tb).mask).getD i []).getD j (0, 0, 0) =
      (if ((j : Int) - x) ^ 2 + ((i : Int) - y) ^ 2 ≤ (tb : Int) ^ 2
       then (if s.eraserMode then (0, 0, 0) else (255, 255, 255))
       else (s.mask.getD i []).getD j (0, 0, 0)) := by
  rw [draw_mask_down]
  exact ⟨stampDisc_length _ _ _ _ _, stampDisc_row_length _ _ _ _ _ i hi,
    stampDisc_getD _ _ _ _ _ i j hi hj⟩

/-- C5 witness: a radius-1 stamp at centre (1, 1) on the concrete 2×3
all-zero session, evaluated at row 1, column 2 (Euclidean distance 1 from
the centre, so inside the disc). -/
theorem stamp_disc_exact_witness :
    ((draw_mask stateB EVENT_LBUTTONDOWN 1 1 1).mask).length = stateB.mask.length ∧
    (((draw_mask stateB EVENT_LBUTTONDOWN 1 1 1).mask).getD 1 []).length =
      (stateB.mask.getD 1 []).length ∧
    (((draw_mask stateB EVENT_LBUTTONDOWN 1 1 1).mask).getD 1 []).getD 2 (0, 0, 0) =
      (if ((2 : Int) - 1) ^ 2 + ((1 : Int) - 1) ^ 2 ≤ ((1 : Nat) : Int) ^ 2
       then (if stateB.eraserMode then (0, 0, 0) else (255, 255, 255))
       else (stateB.mask.getD 1 []).getD 2 (0, 0, 0)) :=
  stamp_disc_exact stateB 1 1 1 1 2 (by decide) (by decide)

/-- C6: in every reachable session state, pressing `r` (reset: zero the mask
in place) and then running `save_mask` persists, at the session's mask path,
an all-zero 1-channel mask whose shape is exactly the current image's
(height, width). -/
theorem reset_then_save_all_zeros (env : Env) (s : ToolState)
    (h : Reachable env s) :
    List.lookup s.maskPath (save_mask (mainStep env 114 s).1).disk =
      some (List.replicate (env.shape (imgAt s)).1
        (List.replicate (env.shape (imgAt s)).2 0)) := by
  obtain ⟨hne, hidx, hpc, hpath, hrect, hdisk⟩ := reachable_shapeInv env s h
  have h114 : mainStep env 114 s =
      ({ s with
        mask := s.mask.map (List.map fun _ => ((0 : Nat), (0 : Nat), (0 : Nat))) },
       true) := by
    simp [mainStep]
  rw [h114]
  show List.lookup s.maskPath
    ((s.maskPath,
      collapseMask (s.mask.map (List.map fun _ => ((0 : Nat), (0 : Nat), (0 : Nat)))))
      :: s.disk) = _
  rw [List.lookup_cons]
  simp only [beq_self_eq_true, if_pos]
  rw [collapse_reset s.mask _ _ hrect]

/-- C6 witness: reset-then-save at the concrete fresh session persists the
2×3 all-zero mask. -/
theorem reset_then_save_all_zeros_witness :
    List.lookup stateA.maskPath (save_mask (mainStep envA 114 stateA).1).disk =
      some (List.replicate (envA.shape (imgAt stateA)).1
        (List.replicate (envA.shape (imgAt stateA)).2 0)) :=
  reset_then_save_all_zeros envA stateA
    (Reachable.init ["images/a.png"] "images" none []
      (by decide)
      (fun f _ g _ _ => rfl)
      (fun f _ b hb => by simp [List.lookup] at hb))

/-- C7 counterexample: `set_brush_size` performs no clamping — the integer
argument 51 is stored verbatim, so the stored brush size does not lie in
[0, 50] as the claim asserts for every integer argument. -/
theorem set_brush_size_not_clamped :
    (set_brush_size stateB 51).brushSize = 51 ∧
    ¬ ((set_brush_size stateB 51).brushSize ≤ 50) := by
  constructor <;> decide

/-- C7 amended: `set_brush_size` stores its argument unchanged, with no
clamping; consequently the stored brush size lies in [0, 50] exactly when
the argument does — which the trackbar (the only caller, range [0, 50])
guarantees. -/
theorem set_brush_size_stores_argument (s : ToolState) (size : Int) :
    (set_brush_size s size).brushSize = size ∧
    (0 ≤ size → size ≤ 50 →
      0 ≤ (set_brush_size s size).brushSize ∧
        (set_brush_size s size).brushSize ≤ 50) :=
  ⟨rfl, fun h1 h2 => ⟨h1, h2⟩⟩

/-- C7 amended witness: argument 30 is stored and lies in [0, 50]. -/
theorem set_brush_size_stores_argument_witness :
    (set_brush_size stateB 30).brushSize = 30 ∧
    (0 ≤ (set_brush_size stateB 30).brushSize ∧
      (set_brush_size stateB 30).brushSize ≤ 50) :=
  ⟨(set_brush_size_stores_argument stateB 30).1,
    (set_brush_size_stores_argument stateB 30).2 (by decide) (by decide)⟩

/-- C8 counterexample: invoking the CLI without `--save_dir` (and without
`--img_dir`, so `img_dir = "images"`) yields a session whose save directory
is the parser default `"outputs"`, not the image directory. -/
theorem cli_save_dir_not_img_dir :
    (cliInit envA ["images/a.png"] none none []).saveDir = "outputs" ∧
    (cliInit envA ["images/a.png"] none none []).saveDir ≠ "images" ∧
    (parse_args none none).img_dir = "images" ∧
    (parse_args none none).save_dir = "outputs" := by
  refine ⟨?_, ?_, rfl, rfl⟩ <;> decide

/-- C8 amended: the constructor's `save_dir` parameter defaults to the image
directory only when `None` or the empty string is passed; but `parse_args`
defaults `--save_dir` to `"outputs"` and the entry point always passes the
parsed value, so a CLI invocation without `--save_dir` persists masks in
`"outputs"`, not alongside the images. -/
theorem save_dir_defaults (env : Env) (imgFiles : List String)
    (img_dir : String) (disk0 : List (String × Mask1)) (img_arg : Option String) :
    (initTool env imgFiles img_dir none disk0).saveDir = img_dir ∧
    (initTool env imgFiles img_dir (some "") disk0).saveDir = img_dir ∧
    (cliInit env imgFiles img_arg none disk0).saveDir = "outputs" := by
  refine ⟨?_, ?_, ?_⟩
  · unfold initTool
    rw [initialize_mask_saveDir]
    rfl
  · unfold initTool
    rw [initialize_mask_saveDir]
    simp [saveDirOf]
  · unfold cliInit parse_args initTool
    rw [initialize_mask_saveDir]
    simp [saveDirOf]

/-- C9 counterexample: a move event while drawing=false does NOT leave all
other session state unchanged — `draw_mask` refreshes `brush_size` from the
trackbar on every pointer event, so with the trackbar at 7 and a stored
brush size of 5 the state changes. -/
theorem move_while_idle_changes_state :
    stateB.drawing = false ∧
    stateB.brushSize = 5 ∧
    (draw_mask stateB EVENT_MOUSEMOVE 0 0 7).brushSize = 7 ∧
    draw_mask stateB EVENT_MOUSEMOVE 0 0 7 ≠ stateB := by
  refine ⟨rfl, rfl, ?_, ?_⟩ <;> decide

/-- C9 amended: button-up sets drawing=false and performs no mask mutation;
a move while drawing=false leaves the mask buffer unchanged; only
button-down and move-while-drawing mutate the mask — but every pointer
event (including button-up and idle moves) first refreshes the brush size
from the trackbar, so "all other session state" is preserved only modulo
that refresh. -/
theorem pointer_events_amended (s : ToolState) (x y : Int) (tb : Nat) :
    draw_mask s EVENT_LBUTTONUP x y tb =
      { s with brushSize := (tb : Int), drawing := false } ∧
    (s.drawing = false →
      draw_mask s EVENT_MOUSEMOVE x y tb = { s with brushSize := (tb : Int) }) ∧
    (∀ event : Nat, event ≠ EVENT_LBUTTONDOWN →
      (event = EVENT_MOUSEMOVE → s.drawing = false) →
      (draw_mask s event x y tb).mask = s.mask) := by
  refine ⟨?_, ?_, ?_⟩
  · unfold draw_mask EVENT_LBUTTONDOWN EVENT_LBUTTONUP
    norm_num
  · intro hd
    unfold draw_mask EVENT_LBUTTONDOWN EVENT_LBUTTONUP EVENT_MOUSEMOVE
    norm_num [hd]
  · intro event h1 h2
    simp only [EVENT_LBUTTONDOWN] at h1
    simp only [EVENT_MOUSEMOVE] at h2
    unfold draw_mask EVENT_LBUTTONDOWN EVENT_LBUTTONUP EVENT_MOUSEMOVE
    by_cases he4 : event = 4
    · simp [he4]
    · by_cases he0 : event = 0
      · simp [he0, h1, h2 he0]
      · simp [h1, he4, he0]

/-- C9 amended witness: the three behaviours at the concrete idle session
with the trackbar at 7. -/
theorem pointer_events_amended_witness :
    draw_mask stateB EVENT_LBUTTONUP 0 0 7 =
      { stateB with brushSize := (7 : Int), drawing := false } ∧
    draw_mask stateB EVENT_MOUSEMOVE 0 0 7 =
      { stateB with brushSize := (7 : Int) } ∧
    (draw_mask stateB EVENT_LBUTTONUP 0 0 7).mask = stateB.mask :=
  ⟨(pointer_events_amended stateB 0 0 7).1,
   (pointer_events_amended stateB 0 0 7).2.1 (by decide),
   (pointer_events_amended stateB 0 0 7).2.2 EVENT_LBUTTONUP
     (fun h => absurd h (by decide)) (fun h => absurd h (by decide))⟩

/-- C10: in every reachable session state whose persisted mask files hold
only values in {0,1}, every pixel of the in-memory 3-channel mask is
(0,0,0) or (255,255,255) — the three channels agree everywhere — and
therefore the grayscale-then-threshold collapse of `save_mask` coincides
with testing any single channel for nonzero. -/
theorem mask_channels_pure_and_collapse (env : Env) (s : ToolState)
    (h : Reachable env s) (hd : DiskVals01 s.disk) :
    ChanPure s.mask ∧
    collapseMask s.mask = s.mask.map (List.map fun p => if p.1 ≠ 0 then 1 else 0) ∧
    collapseMask s.mask = s.mask.map (List.map fun p => if p.2.1 ≠ 0 then 1 else 0) ∧
    collapseMask s.mask = s.mask.map (List.map fun p => if p.2.2 ≠ 0 then 1 else 0) := by
  have hp := reachable_pure env s h hd
  refine ⟨hp, ?_, ?_, ?_⟩ <;>
  · unfold collapseMask
    refine List.map_congr_left ?_
    intro row hrow
    refine List.map_congr_left ?_
    intro p hpp
    rcases hp row hrow p hpp with rfl | rfl <;> norm_num [gray]

/-- C10 witness: the invariant at the concrete fresh session (empty disk,
so the 0/1 condition on persisted files holds vacuously). -/
theorem mask_channels_pure_and_collapse_witness :
    ChanPure stateA.mask ∧
    collapseMask stateA.mask =
      stateA.mask.map (List.map fun p => if p.1 ≠ 0 then 1 else 0) ∧
    collapseMask stateA.mask =
      stateA.mask.map (List.map fun p => if p.2.1 ≠ 0 then 1 else 0) ∧
    collapseMask stateA.mask =
      stateA.mask.map (List.map fun p => if p.2.2 ≠ 0 then 1 else 0) :=
  mask_channels_pure_and_collapse envA stateA
    (Reachable.init ["images/a.png"] "images" none []
      (by decide)
      (fun f _ g _ _ => rfl)
      (fun f _ b hb => by simp [List.lookup] at hb))
    (by decide)
